import Mathlib

/-!
# RSA Store — shallow embedding of the order/payment reconciliation core

This file embeds, in Lean, the payment-reconciliation core of the RSA Store
server (`src/unnamed/part_000`, with helpers from `src/database.js` and
`src/bot-whatsapp.js`):

* the order ledger rows and their SQL operations,
* the payment webhook (`app.post('/webhook/payment')`): API-key check, amount
  extraction, exact-amount matching against pending orders, the `paid`
  transition, guarded stock decrement and download-token insertion,
* the download handler (`app.get('/download/:token')`),
* the checkout handler (`app.post('/checkout/:productId')`) and the bot's
  `createOrder`,
* the periodic `cleanupExpiredOrders` sweep.

Timestamps stored by SQLite's `CURRENT_TIMESTAMP` default (orders'
`created_at`, `paid_at`) are modelled as `String`s, because the code compares
them as SQLite TEXT values (lexicographically, BINARY collation): the
`cleanupExpiredOrders` sweep compares the `created_at` column against a
JavaScript `toISOString()` cutoff, and the two formats differ
(`"YYYY-MM-DD HH:MM:SS"` vs `"YYYY-MM-DDTHH:MM:SS.sssZ"`), which is
observable behaviour.  Token expiry times are compared in JavaScript via
`new Date(...)`, i.e. numerically, so `expires_at` is modelled as an `Int`
epoch-milliseconds value.  JavaScript string/number truthiness is modelled
explicitly (`strTruthy`, `numTruthy`); a JS value that may be `NaN` is
modelled as an `Option Int` with `none` for `NaN`.
-/

namespace RSAStore

/-- A row of the `orders` table (schema in `src/database.js`). -/
structure Order where
  invoice_number : String
  product_id : String
  product_name : String
  product_price : Int
  unique_code : Int
  total_amount : Int
  customer_email : Option String
  customer_whatsapp : Option String
  customer_telegram : Option String
  status : String
  qris_string : String
  created_at : String
  paid_at : Option String
  deriving Repr, DecidableEq

/-- The fields of a `products` row that the core reads. -/
structure Product where
  id : String
  name : String
  price : Int
  stock : Int
  is_active : Bool
  download_link : Option String
  file_path : Option String
  deriving Repr, DecidableEq

/-- A row of the `download_tokens` table (schema in `src/database.js`).
`expires_at` is epoch milliseconds (the code writes an ISO string and reads it
back through `new Date`, an exact round trip). -/
structure DownloadToken where
  token : String
  invoice_number : String
  product_id : String
  created_at : Int
  expires_at : Int
  is_used : Bool
  download_count : Int
  last_download_at : Option Int
  deriving Repr, DecidableEq

/-- The tables the reconciliation core touches. -/
structure DBState where
  orders : List Order
  products : List Product
  tokens : List DownloadToken
  deriving Repr, DecidableEq

/-- The two settings the webhook reads (`settings` key-value table).
`webhook_api_key = none` models a missing key; `some ""` an empty value —
both are falsy in the JavaScript guard.  `token_expiry_minutes` is the parsed
value of the setting, with `none` when the setting is absent or empty
(the code falls back to `'60'`). -/
structure Settings where
  webhook_api_key : Option String
  token_expiry_minutes : Option Int
  deriving Repr, DecidableEq

/-- SQLite's BINARY collation on TEXT values (a `memcmp` of the encodings;
for the ASCII timestamp strings the code stores, byte order coincides with
code-point order): `charsLt a b` iff `a` sorts strictly before `b`. -/
def charsLt : List Char → List Char → Bool
  | _, [] => false
  | [], _ :: _ => true
  | a :: as, b :: bs =>
      if a < b then true
      else if b < a then false
      else charsLt as bs

/-- `s < t` as SQLite compares two TEXT values (BINARY collation). -/
def textLt (s t : String) : Bool := charsLt s.data t.data

/-- JavaScript truthiness of a string-or-undefined value: truthy iff present
and non-empty. -/
def strTruthy : Option String → Bool
  | none => false
  | some s => s ≠ ""

/-- JavaScript truthiness of a number-or-undefined value: truthy iff present
and non-zero. -/
def numTruthy : Option Int → Bool
  | none => false
  | some n => n ≠ 0

/-- The loosely-typed webhook notification body: the fields the extraction
code probes.  Numeric fields are `Option Int` (absent = `undefined`). -/
structure Notification where
  amountDetected : Option Int
  amount : Option Int
  text : Option String
  deriving Repr, DecidableEq

/-- Character class `[\d\.,]` of the webhook's currency regex. -/
def isAmountChar (c : Char) : Bool := c.isDigit || c == '.' || c == ','

/-- The scan of `text.match(/Rp\s*([\d\.,]+)/)`: find the first occurrence of
`"Rp"` that is followed (after optional whitespace) by at least one character
of `[\d\.,]`, and return that run (the capture group); on failure the regex
engine resumes one position further right. -/
def rpCapture : List Char → Option (List Char)
  | [] => none
  | 'R' :: rest =>
      match rest with
      | 'p' :: rest2 =>
          let body := (rest2.dropWhile Char.isWhitespace).takeWhile isAmountChar
          if body.isEmpty then rpCapture rest else some body
      | _ => rpCapture rest
  | _ :: rest => rpCapture rest

/-- Value of a decimal digit string (what `parseInt(s, 10)` returns on an
all-digit string). -/
def digitsToNat (cs : List Char) : Nat :=
  cs.foldl (fun acc c => acc * 10 + (c.toNat - '0'.toNat)) 0

/-- `parseInt(captured.replace(/[.,]/g, ''), 10)`: strip dots and commas and
parse; `none` models `NaN` (capture consisted only of separators). -/
def parseStripped (cs : List Char) : Option Int :=
  let ds := cs.filter (fun c => !(c == '.' || c == ','))
  if ds.isEmpty then none else some (digitsToNat ds)

/-- Amount extraction from the free-text field: apply the currency regex; if
it does not match, the JS `amount` variable keeps its initial value `0`. -/
def extractFromText (t : String) : Option Int :=
  match rpCapture t.data with
  | none => some 0
  | some body => parseStripped body

/-- The webhook's amount extraction: numeric field `amountDetected` first,
then `amount`, then the currency regex over `text`; the result is the JS
`amount` variable (`some 0` when nothing was extracted, `none` for `NaN`). -/
def extractAmount (n : Notification) : Option Int :=
  if numTruthy n.amountDetected then n.amountDetected
  else if numTruthy n.amount then n.amount
  else if strTruthy n.text then extractFromText (n.text.getD "")
  else some 0

/-- Outcome of a webhook call, mirroring the JSON responses of
`app.post('/webhook/payment')`. -/
inductive WebhookResult
  | unauthorized
  | noAmount
  | noMatch
  | paidInvoice (invoice : String)
  deriving Repr, DecidableEq

/-- Rows satisfying `total_amount = ? AND status = 'pending'`.  A `none`
amount models the `NaN` bind parameter (becomes SQL `NULL`, matching no
row). -/
def pendingMatches (a : Option Int) (orders : List Order) : List Order :=
  orders.filter (fun o => decide (some o.total_amount = a ∧ o.status = "pending"))

/-- Keep the later-created of two rows (the accumulator of the
`ORDER BY created_at DESC LIMIT 1` selection, in SQLite TEXT order). -/
def pickLater (best x : Order) : Order :=
  if textLt best.created_at x.created_at then x else best

/-- `ORDER BY created_at DESC LIMIT 1` over the filtered rows: a row whose
`created_at` is maximal in the SQLite TEXT order. -/
def mostRecent : List Order → Option Order
  | [] => none
  | o :: os => some (os.foldl pickLater o)

/-- The match query of the webhook:
`SELECT * FROM orders WHERE total_amount = ? AND status = 'pending'
ORDER BY created_at DESC LIMIT 1`. -/
def findMatch (a : Option Int) (orders : List Order) : Option Order :=
  mostRecent (pendingMatches a orders)

/-- `UPDATE orders SET status = 'paid', paid_at = CURRENT_TIMESTAMP WHERE
invoice_number = ?`. -/
def markPaid (inv : String) (nowTs : String) (orders : List Order) : List Order :=
  orders.map fun o =>
    if o.invoice_number = inv then { o with status := "paid", paid_at := some nowTs } else o

/-- `UPDATE products SET stock = stock - 1 WHERE id = ? AND stock > 0`. -/
def decStock (pid : String) (products : List Product) : List Product :=
  products.map fun p =>
    if p.id = pid ∧ 0 < p.stock then { p with stock := p.stock - 1 } else p

/-- `parseInt(settings.token_expiry_minutes || '60')`. -/
def expiryMinutes (s : Settings) : Int := s.token_expiry_minutes.getD 60

/-- The `download_tokens` row inserted by the webhook (and by the recovery
flow): fresh token string, owning invoice and product, expiry now + configured
minutes; `is_used`/`download_count` take their schema defaults. -/
def newToken (tok : String) (o : Order) (nowMs : Int) (st : Settings) : DownloadToken :=
  { token := tok
    invoice_number := o.invoice_number
    product_id := o.product_id
    created_at := nowMs
    expires_at := nowMs + expiryMinutes st * 60 * 1000
    is_used := false
    download_count := 0
    last_download_at := none }

/-- One call of `app.post('/webhook/payment')`: API-key check, amount
extraction, match query, then (on a match) the `paid` update, the guarded
stock decrement and the token insert.  `apiKey` is the `x-api-key` header
(`none` = absent), `nowTs` the SQL `CURRENT_TIMESTAMP` string, `nowMs` the JS
`Date.now()`, `tok` the freshly generated random token string. -/
def webhookStep (st : Settings) (apiKey : Option String) (notif : Notification)
    (nowTs : String) (nowMs : Int) (tok : String) (s : DBState) :
    WebhookResult × DBState :=
  if strTruthy st.webhook_api_key ∧ apiKey ≠ some (st.webhook_api_key.getD "") then
    (.unauthorized, s)
  else
    if extractAmount notif = some 0 then (.noAmount, s)
    else
      match findMatch (extractAmount notif) s.orders with
      | none => (.noMatch, s)
      | some o =>
          (.paidInvoice o.invoice_number,
           { orders := markPaid o.invoice_number nowTs s.orders
             products := decStock o.product_id s.products
             tokens := s.tokens ++ [newToken tok o nowMs st] })

/-- `cleanupExpiredOrders`: `DELETE FROM orders WHERE status = 'pending' AND
created_at < ?`, where the bound cutoff is the JavaScript ISO string
`new Date(Date.now() - 60*60*1000).toISOString()`.  Both operands are SQLite
TEXT, compared lexicographically. -/
def cleanupExpiredOrders (oneHourAgo : String) (orders : List Order) : List Order :=
  orders.filter fun o => !(o.status == "pending" && textLt o.created_at oneHourAgo)

/-- Outcome of `app.get('/download/:token')`. -/
inductive RedeemResult
  | expiredRedirect
  | forbidden
  | redirectLink (url : String)
  | serveFile (filePath : String)
  | fileNotFound
  deriving Repr, DecidableEq

/-- Token lookup of the download handler's `SELECT ... WHERE dt.token = ?`
(`token` is the primary key; `db.get` returns the first row). -/
def findToken (t : String) (l : List DownloadToken) : Option DownloadToken :=
  l.find? fun dt => dt.token == t

/-- The `JOIN orders o ON dt.invoice_number = o.invoice_number` leg. -/
def findOrder (inv : String) (l : List Order) : Option Order :=
  l.find? fun o => o.invoice_number == inv

/-- The `JOIN products p ON dt.product_id = p.id` leg. -/
def findProduct (pid : String) (l : List Product) : Option Product :=
  l.find? fun p => p.id == pid

/-- `UPDATE download_tokens SET download_count = download_count + 1,
last_download_at = CURRENT_TIMESTAMP, is_used = 1 WHERE token = ?`. -/
def touchToken (t : String) (nowMs : Int) (tokens : List DownloadToken) : List DownloadToken :=
  tokens.map fun dt =>
    if dt.token = t then
      { dt with download_count := dt.download_count + 1
                last_download_at := some nowMs
                is_used := true }
    else dt

/-- One call of `app.get('/download/:token')`: inner-join lookup (a missing
token, order or product row all land on the `/expired-link` redirect), then
the expiry check (`now > expires_at`), then the paid check (403), then the
count update and the delivery choice (external link preferred over local
file; neither present is a 404). -/
def redeem (t : String) (nowMs : Int) (s : DBState) : RedeemResult × DBState :=
  match findToken t s.tokens with
  | none => (.expiredRedirect, s)
  | some dt =>
    match findOrder dt.invoice_number s.orders with
    | none => (.expiredRedirect, s)
    | some o =>
      match findProduct dt.product_id s.products with
      | none => (.expiredRedirect, s)
      | some p =>
        if dt.expires_at < nowMs then (.expiredRedirect, s)
        else if o.status ≠ "paid" then (.forbidden, s)
        else
          let s' : DBState := { s with tokens := touchToken t nowMs s.tokens }
          if strTruthy p.download_link then (.redirectLink (p.download_link.getD ""), s')
          else if strTruthy p.file_path then (.serveFile (p.file_path.getD ""), s')
          else (.fileNotFound, s')

/-- Outcome of `app.post('/checkout/:productId')`. -/
inductive CheckoutResult
  | emailRequired
  | notAvailable
  | ok (invoice : String)
  deriving Repr, DecidableEq

/-- `SELECT * FROM products WHERE id = ? AND is_active = 1`. -/
def findActiveProduct (pid : String) (l : List Product) : Option Product :=
  l.find? fun p => p.id == pid && p.is_active

/-- The `orders` row inserted by checkout (web or bot): snapshot of product
name and price, `total_amount = price + unique_code`, `status = 'pending'`,
`created_at` from the `CURRENT_TIMESTAMP` default, `paid_at` NULL. -/
def mkOrder (inv : String) (p : Product) (code : Int)
    (email wa tg : Option String) (qris : String) (nowTs : String) : Order :=
  { invoice_number := inv
    product_id := p.id
    product_name := p.name
    product_price := p.price
    unique_code := code
    total_amount := p.price + code
    customer_email := email
    customer_whatsapp := wa
    customer_telegram := tg
    status := "pending"
    qris_string := qris
    created_at := nowTs
    paid_at := none }

/-- One call of `app.post('/checkout/:productId')`.  The contact arguments
are the values *after* `sanitize.*` (a module outside the provided sources);
`none` models a JS-falsy sanitized value (`undefined`, `null` or `''`), which
is exactly what the `!customer_email` guard and the `x || null` inserts
test.  `code` is the fresh `generateUniqueCode()`, `inv` the fresh invoice
number, `qris` the QRIS string obtained from the microservice (or the base
string on fallback). -/
def checkoutStep (pid : String) (email wa tg : Option String)
    (inv : String) (code : Int) (qris : String) (nowTs : String)
    (s : DBState) : CheckoutResult × DBState :=
  if ¬ strTruthy email then (.emailRequired, s)
  else
    match findActiveProduct pid s.products with
    | none => (.notAvailable, s)
    | some p =>
        if p.stock ≤ 0 then (.notAvailable, s)
        else (.ok inv, { s with orders := s.orders ++ [mkOrder inv p code email wa tg qris nowTs] })

/-- `createOrder` of `src/bot-whatsapp.js`: same insert as web checkout but
without the `customer_telegram` column (NULL) and with no validation of its
own (the caller checks product existence and stock). -/
def botCreateOrder (p : Product) (email wa : Option String)
    (inv : String) (code : Int) (qris : String) (nowTs : String)
    (s : DBState) : DBState :=
  { s with orders := s.orders ++ [mkOrder inv p code email wa none qris nowTs] }

/-- Modelled from the spec: `generateUniqueCode` is defined in `utils.js`,
which is not among the provided sources.  The spec states the unique code is
"a random integer in a small fixed range", namely 1–999 ("a per-order unique
code (small random surcharge, 1–999)"). -/
def uniqueCodeInRange (code : Int) : Prop := 1 ≤ code ∧ code ≤ 999

/-- The arguments of one webhook delivery (settings snapshot, `x-api-key`
header, body, `CURRENT_TIMESTAMP`, `Date.now()`, fresh token string). -/
structure WebhookInput where
  settings : Settings
  apiKey : Option String
  notif : Notification
  nowTs : String
  nowMs : Int
  tok : String
  deriving Repr, DecidableEq

/-- The state reached after a sequence of webhook deliveries. -/
def runWebhooks (l : List WebhookInput) (s : DBState) : DBState :=
  l.foldl (fun st i => (webhookStep i.settings i.apiKey i.notif i.nowTs i.nowMs i.tok st).2) s

/-! ## Concrete fixtures used by witnesses and counterexamples -/

/-- A product row: price 50000, five in stock, active, external link. -/
def sampleProduct : Product :=
  { id := "P1", name := "EBook", price := 50000, stock := 5, is_active := true
    download_link := some "https://files.example/ebook", file_path := none }

/-- A pending order at total 50123 (price 50000 + unique code 123). -/
def sampleOrder1 : Order :=
  { invoice_number := "INV-1", product_id := "P1", product_name := "EBook"
    product_price := 50000, unique_code := 123, total_amount := 50123
    customer_email := some "a@b.c", customer_whatsapp := none, customer_telegram := none
    status := "pending", qris_string := "Q", created_at := "2024-01-15 10:00:00"
    paid_at := none }

/-- A second, later pending order that happens to carry the same total
(unique-code collision: 50023 + 100 = 50123). -/
def sampleOrder2 : Order :=
  { invoice_number := "INV-2", product_id := "P1", product_name := "EBook"
    product_price := 50023, unique_code := 100, total_amount := 50123
    customer_email := some "d@e.f", customer_whatsapp := none, customer_telegram := none
    status := "pending", qris_string := "Q", created_at := "2024-01-15 10:05:00"
    paid_at := none }

/-- Settings with no webhook API key configured. -/
def sampleSettings : Settings := { webhook_api_key := none, token_expiry_minutes := none }

/-- A webhook body carrying the amount in `amountDetected`. -/
def sampleNotif : Notification :=
  { amountDetected := some 50123, amount := none, text := none }

/-- One pending order at 50123. -/
def oneOrderState : DBState :=
  { orders := [sampleOrder1], products := [sampleProduct], tokens := [] }

/-- Two pending orders at the same total 50123. -/
def twoOrderState : DBState :=
  { orders := [sampleOrder1, sampleOrder2], products := [sampleProduct], tokens := [] }

/-- The state after a first delivery of `sampleNotif` against
`twoOrderState`. -/
def afterFirstDelivery : DBState :=
  (webhookStep sampleSettings none sampleNotif "2024-01-15 11:00:00" 0 "tokA" twoOrderState).2

/-- An empty shop with the sample product on the shelf. -/
def emptyShopState : DBState :=
  { orders := [], products := [sampleProduct], tokens := [] }

/-- A token whose order is still `pending`, already expired at redemption
time. -/
def pendingToken : DownloadToken :=
  { token := "T1", invoice_number := "INV-1", product_id := "P1"
    created_at := 0, expires_at := 1000, is_used := false
    download_count := 0, last_download_at := none }

/-- A shop holding `pendingToken` bound to the (pending) `sampleOrder1`. -/
def pendingTokenState : DBState :=
  { orders := [sampleOrder1], products := [sampleProduct], tokens := [pendingToken] }

/-- A `paid` copy of `sampleOrder1`, with a fresh unexpired token `T2`. -/
def paidOrder : Order :=
  { sampleOrder1 with status := "paid", paid_at := some "2024-01-15 11:00:00" }

/-- An unexpired token (expiry at epoch-ms 3600000) for `paidOrder`. -/
def paidToken : DownloadToken :=
  { pendingToken with token := "T2", expires_at := 3600000 }

/-- A shop with a paid order and its live download token. -/
def paidTokenState : DBState :=
  { orders := [paidOrder], products := [sampleProduct], tokens := [paidToken] }

/-! ## Helper lemmas -/

lemma charsLt_nil_right (a : List Char) : charsLt a [] = false := by
  cases a <;> rfl

lemma charsLt_irrefl : ∀ (a : List Char), charsLt a a = false := by
  intro a
  induction a with
  | nil => rfl
  | cons x xs ih => simp [charsLt, lt_irrefl, ih]

lemma charsLt_cons_iff {x y : Char} {xs ys : List Char} :
    charsLt (x :: xs) (y :: ys) = true ↔ x < y ∨ (x = y ∧ charsLt xs ys = true) := by
  by_cases h1 : x < y
  · simp [charsLt, h1]
  · by_cases h2 : y < x
    · simp [charsLt, h1, h2, (ne_of_lt h2).symm]
    · have hxy : x = y := le_antisymm (not_lt.1 h2) (not_lt.1 h1)
      simp [charsLt, h1, h2, hxy]

lemma charsLt_trans : ∀ (a b c : List Char),
    charsLt a b = true → charsLt b c = true → charsLt a c = true := by
  intro a
  induction a with
  | nil =>
      intro b c h1 h2
      cases c with
      | nil => rw [charsLt_nil_right] at h2; cases h2
      | cons z zs => rfl
  | cons x xs ih =>
      intro b c h1 h2
      cases b with
      | nil => rw [charsLt_nil_right] at h1; cases h1
      | cons y ys =>
          cases c with
          | nil => rw [charsLt_nil_right] at h2; cases h2
          | cons z zs =>
              rw [charsLt_cons_iff] at h1 h2 ⊢
              rcases h1 with h1 | ⟨rfl, h1⟩
              · rcases h2 with h2 | ⟨rfl, h2⟩
                · exact Or.inl (lt_trans h1 h2)
                · exact Or.inl h1
              · rcases h2 with h2 | ⟨rfl, h2⟩
                · exact Or.inl h2
                · exact Or.inr ⟨rfl, ih ys zs h1 h2⟩

lemma textLt_irrefl (s : String) : textLt s s = false := charsLt_irrefl s.data

lemma textLt_trans {a b c : String} (h1 : textLt a b = true) (h2 : textLt b c = true) :
    textLt a c = true := charsLt_trans a.data b.data c.data h1 h2

lemma textLt_asymm {a b : String} (h : textLt a b = true) : textLt b a = false := by
  by_contra hc
  have hb : textLt b a = true := by revert hc; cases textLt b a <;> simp
  have := textLt_trans h hb
  rw [textLt_irrefl] at this
  cases this

lemma pickLater_cases (b x : Order) : pickLater b x = b ∨ pickLater b x = x := by
  unfold pickLater; split
  · right; rfl
  · left; rfl

lemma pickLater_notLt_left (b x : Order) :
    textLt (pickLater b x).created_at b.created_at = false := by
  unfold pickLater; split
  · exact textLt_asymm (by assumption)
  · exact textLt_irrefl _

lemma pickLater_notLt_right (b x : Order) :
    textLt (pickLater b x).created_at x.created_at = false := by
  unfold pickLater; split
  · exact textLt_irrefl _
  · rename_i h; simpa using h

lemma pickLater_preserve {b x : Order} {z : String}
    (h : textLt b.created_at z = false) :
    textLt (pickLater b x).created_at z = false := by
  unfold pickLater; split
  · rename_i hbx
    by_contra hc
    have hxz : textLt x.created_at z = true := by
      revert hc; cases textLt x.created_at z <;> simp
    have := textLt_trans hbx hxz
    rw [this] at h
    cases h
  · exact h

lemma foldl_pickLater_inv :
    ∀ (os : List Order) (o : Order) (z : String),
      textLt o.created_at z = false →
      textLt (os.foldl pickLater o).created_at z = false := by
  intro os
  induction os with
  | nil => intro o z h; exact h
  | cons a as ih =>
      intro o z h
      simp only [List.foldl]
      exact ih (pickLater o a) z (pickLater_preserve h)

lemma foldl_pickLater_mem : ∀ (os : List Order) (o : Order), os.foldl pickLater o ∈ o :: os := by
  intro os
  induction os with
  | nil => intro o; simp [List.foldl]
  | cons a as ih =>
      intro o
      have h := ih (pickLater o a)
      rcases pickLater_cases o a with hc | hc <;> rw [hc] at h <;>
        simp only [List.foldl, hc, List.mem_cons] at h ⊢ <;> tauto

/-- The selected accumulator is never created strictly later than any row it
has seen (i.e. it is a most-recent row). -/
lemma foldl_pickLater_notLt :
    ∀ (os : List Order) (o x : Order), x ∈ o :: os →
      textLt (os.foldl pickLater o).created_at x.created_at = false := by
  intro os
  induction os with
  | nil =>
      intro o x hx
      simp only [List.mem_singleton] at hx
      subst hx
      exact textLt_irrefl _
  | cons a as ih =>
      intro o x hx
      simp only [List.foldl]
      rcases List.mem_cons.1 hx with rfl | hx'
      · exact foldl_pickLater_inv as (pickLater x a) _ (pickLater_notLt_left x a)
      · rcases List.mem_cons.1 hx' with rfl | hx''
        · exact foldl_pickLater_inv as (pickLater o x) _ (pickLater_notLt_right o x)
        · exact ih (pickLater o a) x (List.mem_cons_of_mem _ hx'')

lemma mem_pendingMatches {a : Option Int} {l : List Order} {o : Order} :
    o ∈ pendingMatches a l ↔ o ∈ l ∧ some o.total_amount = a ∧ o.status = "pending" := by
  unfold pendingMatches
  rw [List.mem_filter]
  constructor
  · rintro ⟨hm, hp⟩; exact ⟨hm, of_decide_eq_true hp⟩
  · rintro ⟨hm, hp⟩; exact ⟨hm, decide_eq_true hp⟩

/-- Inversion of the match query: the selected row is a pending row with the
exact amount, and no qualifying row was created later. -/
lemma findMatch_spec {a : Option Int} {l : List Order} {o : Order}
    (h : findMatch a l = some o) :
    o ∈ l ∧ some o.total_amount = a ∧ o.status = "pending" ∧
      ∀ x ∈ l, x.status = "pending" → some x.total_amount = a →
        textLt o.created_at x.created_at = false := by
  unfold findMatch mostRecent at h
  cases hpm : pendingMatches a l with
  | nil => rw [hpm] at h; cases h
  | cons b bs =>
      rw [hpm] at h
      injection h with h
      subst h
      have hmem : bs.foldl pickLater b ∈ pendingMatches a l := by
        rw [hpm]; exact foldl_pickLater_mem bs b
      obtain ⟨hml, hamt, hst⟩ := mem_pendingMatches.1 hmem
      refine ⟨hml, hamt, hst, ?_⟩
      intro x hx hxst hxamt
      have hxpm : x ∈ pendingMatches a l := mem_pendingMatches.2 ⟨hx, hxamt, hxst⟩
      rw [hpm] at hxpm
      exact foldl_pickLater_notLt bs b x hxpm

/-- Inversion of a webhook call that answered `paidInvoice`. -/
lemma webhookStep_paid_inv {st : Settings} {k : Option String} {n : Notification}
    {ts : String} {ms : Int} {tok : String} {s : DBState} {inv : String}
    (h : (webhookStep st k n ts ms tok s).1 = .paidInvoice inv) :
    ¬(strTruthy st.webhook_api_key ∧ k ≠ some (st.webhook_api_key.getD "")) ∧
    extractAmount n ≠ some 0 ∧
    ∃ o, findMatch (extractAmount n) s.orders = some o ∧ o.invoice_number = inv ∧
      (webhookStep st k n ts ms tok s).2 =
        { orders := markPaid o.invoice_number ts s.orders
          products := decStock o.product_id s.products
          tokens := s.tokens ++ [newToken tok o ms st] } := by
  unfold webhookStep at h ⊢
  split at h
  · cases h
  · split at h
    · cases h
    · rename_i h1 h2
      cases hfm : findMatch (extractAmount n) s.orders with
      | none => rw [hfm] at h; cases h
      | some o =>
          rw [hfm] at h
          simp only at h
          refine ⟨h1, h2, o, rfl, ?_, ?_⟩
          · exact WebhookResult.paidInvoice.inj h
          · simp only [if_neg h1, if_neg h2, hfm]

/-- A webhook call that did not answer `paidInvoice` leaves the state
untouched. -/
lemma webhookStep_not_paid {st : Settings} {k : Option String} {n : Notification}
    {ts : String} {ms : Int} {tok : String} {s : DBState}
    (h : ∀ inv, (webhookStep st k n ts ms tok s).1 ≠ .paidInvoice inv) :
    (webhookStep st k n ts ms tok s).2 = s := by
  unfold webhookStep at h ⊢
  split
  · rfl
  · split
    · rfl
    · cases hfm : findMatch (extractAmount n) s.orders with
      | none => simp only [hfm]
      | some o =>
          rename_i h1 h2
          exfalso
          apply h o.invoice_number
          simp only [if_neg h1, if_neg h2, hfm]

lemma mem_markPaid_of_ne {l : List Order} {inv ts : String} {o : Order}
    (hm : o ∈ l) (hne : o.invoice_number ≠ inv) : o ∈ markPaid inv ts l := by
  unfold markPaid
  rw [List.mem_map]
  refine ⟨o, hm, ?_⟩
  simp [hne]

lemma markPaid_status {l : List Order} {inv ts : String} :
    ∀ o ∈ markPaid inv ts l, o.invoice_number = inv →
      o.status = "paid" ∧ o.paid_at = some ts := by
  intro o ho hinv
  unfold markPaid at ho
  obtain ⟨x, hx, hfx⟩ := List.mem_map.1 ho
  by_cases hc : x.invoice_number = inv
  · rw [if_pos hc] at hfx; rw [← hfx]; exact ⟨rfl, rfl⟩
  · rw [if_neg hc] at hfx; subst hfx; exact absurd hinv hc

lemma mem_markPaid_updated {l : List Order} {inv ts : String} {o : Order}
    (hm : o ∈ l) (hinv : o.invoice_number = inv) :
    { o with status := "paid", paid_at := some ts } ∈ markPaid inv ts l := by
  unfold markPaid
  rw [List.mem_map]
  refine ⟨o, hm, ?_⟩
  simp [hinv]

lemma eq_of_mem_of_length_le_one {α : Type _} {l : List α} (h : l.length ≤ 1)
    {a b : α} (ha : a ∈ l) (hb : b ∈ l) : a = b := by
  cases l with
  | nil => cases ha
  | cons c cs =>
      cases cs with
      | nil =>
          simp only [List.mem_singleton] at ha hb
          rw [ha, hb]
      | cons d ds => simp at h

/-- After the `paid` update, no pending row at the amount survives, provided
the matched row was the only one. -/
lemma pendingMatches_after_markPaid {a : Option Int} {l : List Order} {o : Order}
    (hfm : findMatch a l = some o)
    (huniq : (pendingMatches a l).length ≤ 1)
    (ts : String) :
    pendingMatches a (markPaid o.invoice_number ts l) = [] := by
  obtain ⟨hmem, hamt, hst, _⟩ := findMatch_spec hfm
  have ho : o ∈ pendingMatches a l := mem_pendingMatches.2 ⟨hmem, hamt, hst⟩
  rw [List.eq_nil_iff_forall_not_mem]
  intro x hx
  obtain ⟨hxm, hxamt, hxst⟩ := mem_pendingMatches.1 hx
  unfold markPaid at hxm
  obtain ⟨y, hy, hfy⟩ := List.mem_map.1 hxm
  by_cases hc : y.invoice_number = o.invoice_number
  · rw [if_pos hc] at hfy
    rw [← hfy] at hxst
    exact absurd hxst (by simp)
  · rw [if_neg hc] at hfy
    subst hfy
    have hyp : y ∈ pendingMatches a l := mem_pendingMatches.2 ⟨hy, hxamt, hxst⟩
    exact hc (congrArg Order.invoice_number (eq_of_mem_of_length_le_one huniq hyp ho))

/-- One webhook call keeps every product's stock non-negative: the decrement
is guarded by `AND stock > 0`. -/
lemma webhookStep_stock_nonneg {st : Settings} {k : Option String} {n : Notification}
    {ts : String} {ms : Int} {tok : String} {s : DBState}
    (h : ∀ p ∈ s.products, 0 ≤ p.stock) :
    ∀ p ∈ (webhookStep st k n ts ms tok s).2.products, 0 ≤ p.stock := by
  intro p hp
  unfold webhookStep at hp
  split at hp
  · exact h p hp
  · split at hp
    · exact h p hp
    · split at hp
      · exact h p hp
      · rename_i m _
        unfold decStock at hp
        obtain ⟨y, hy, hfy⟩ := List.mem_map.1 hp
        by_cases hc : y.id = m.product_id ∧ 0 < y.stock
        · rw [if_pos hc] at hfy
          rw [← hfy]
          simp only []
          omega
        · rw [if_neg hc] at hfy
          rw [← hfy]
          exact h y hy

/-- The use-tracking update leaves the token findable under the same key,
with only `download_count`, `last_download_at` and `is_used` changed. -/
lemma findToken_touchToken (t : String) (now : Int) :
    ∀ (l : List DownloadToken) (dt : DownloadToken), findToken t l = some dt →
      findToken t (touchToken t now l) =
        some { dt with download_count := dt.download_count + 1
                       last_download_at := some now
                       is_used := true } := by
  intro l
  induction l with
  | nil => intro dt h; simp [findToken] at h
  | cons a as ih =>
      intro dt h
      by_cases hpa : a.token = t
      · unfold findToken at h
        rw [List.find?_cons_of_pos _ (by simp [hpa])] at h
        injection h with h
        subst h
        unfold findToken touchToken
        simp only [List.map_cons, if_pos hpa]
        rw [List.find?_cons_of_pos _ (by simp [hpa])]
      · unfold findToken at h
        rw [List.find?_cons_of_neg _ (by simp [hpa])] at h
        unfold findToken touchToken
        simp only [List.map_cons, if_neg hpa]
        rw [List.find?_cons_of_neg _ (by simp [hpa])]
        exact ih dt h

/-- Inversion of a successful redemption (a redirect or a file stream): the
joined rows exist, the token was unexpired, the order paid, and the resulting
state only touches the token's use-tracking columns. -/
lemma redeem_success_inv {t : String} {now : Int} {s s2 : DBState} {r : RedeemResult}
    (h : redeem t now s = (r, s2))
    (hr : r ≠ .expiredRedirect ∧ r ≠ .forbidden ∧ r ≠ .fileNotFound) :
    ∃ dt o p, findToken t s.tokens = some dt ∧
      findOrder dt.invoice_number s.orders = some o ∧
      findProduct dt.product_id s.products = some p ∧
      ¬ dt.expires_at < now ∧ o.status = "paid" ∧
      s2 = { s with tokens := touchToken t now s.tokens } ∧
      ((strTruthy p.download_link = true ∧ r = .redirectLink (p.download_link.getD "")) ∨
       (strTruthy p.download_link = false ∧ strTruthy p.file_path = true ∧
         r = .serveFile (p.file_path.getD ""))) := by
  unfold redeem at h
  cases hdt : findToken t s.tokens with
  | none =>
      simp only [hdt] at h
      injection h with h1 _
      exact absurd h1.symm hr.1
  | some dt =>
      simp only [hdt] at h
      cases ho : findOrder dt.invoice_number s.orders with
      | none =>
          simp only [ho] at h
          injection h with h1 _
          exact absurd h1.symm hr.1
      | some o =>
          simp only [ho] at h
          cases hp : findProduct dt.product_id s.products with
          | none =>
              simp only [hp] at h
              injection h with h1 _
              exact absurd h1.symm hr.1
          | some p =>
              simp only [hp] at h
              by_cases hexp : dt.expires_at < now
              · simp only [if_pos hexp] at h
                injection h with h1 _
                exact absurd h1.symm hr.1
              · simp only [if_neg hexp] at h
                by_cases hpaid : o.status ≠ "paid"
                · simp only [if_pos hpaid] at h
                  injection h with h1 _
                  exact absurd h1.symm hr.2.1
                · simp only [if_neg hpaid] at h
                  refine ⟨dt, o, p, rfl, ho, hp, hexp, not_ne_iff.1 hpaid, ?_, ?_⟩
                  · by_cases hlink : strTruthy p.download_link
                    · simp only [if_pos hlink] at h
                      injection h with _ h2
                      exact h2.symm
                    · simp only [if_neg hlink] at h
                      by_cases hfile : strTruthy p.file_path
                      · simp only [if_pos hfile] at h
                        injection h with _ h2
                        exact h2.symm
                      · simp only [if_neg hfile] at h
                        injection h with h1 _
                        exact absurd h1.symm hr.2.2
                  · by_cases hlink : strTruthy p.download_link
                    · simp only [if_pos hlink] at h
                      injection h with h1 _
                      exact Or.inl ⟨hlink, h1.symm⟩
                    · simp only [if_neg hlink] at h
                      by_cases hfile : strTruthy p.file_path
                      · simp only [if_pos hfile] at h
                        injection h with h1 _
                        exact Or.inr ⟨by simpa using hlink, hfile, h1.symm⟩
                      · simp only [if_neg hfile] at h
                        injection h with h1 _
                        exact absurd h1.symm hr.2.2

/-! ## Claims -/

/-- **C1.** For every webhook notification from which an amount is extracted,
the Payment Matcher selects at most one order — one with `total_amount`
exactly equal to the extracted amount and status `'pending'`, created no
earlier than any other qualifying order — and transitions that order to
`'paid'` with a paid timestamp; every other order is untouched, and a call
that pays no invoice leaves the state unchanged. -/
theorem webhook_selects_unique_most_recent_pending
    (st : Settings) (k : Option String) (n : Notification) (ts : String) (ms : Int)
    (tok : String) (s : DBState) :
    (∀ inv, (webhookStep st k n ts ms tok s).1 = .paidInvoice inv →
      ∃ o ∈ s.orders,
        o.invoice_number = inv ∧ o.status = "pending" ∧
        some o.total_amount = extractAmount n ∧
        (∀ x ∈ s.orders, x.status = "pending" → some x.total_amount = extractAmount n →
          textLt o.created_at x.created_at = false) ∧
        { o with status := "paid", paid_at := some ts }
          ∈ (webhookStep st k n ts ms tok s).2.orders ∧
        (∀ x ∈ (webhookStep st k n ts ms tok s).2.orders,
          x.invoice_number = inv → x.status = "paid" ∧ x.paid_at = some ts) ∧
        (∀ x ∈ s.orders, x.invoice_number ≠ inv →
          x ∈ (webhookStep st k n ts ms tok s).2.orders)) ∧
    ((∀ inv, (webhookStep st k n ts ms tok s).1 ≠ .paidInvoice inv) →
      (webhookStep st k n ts ms tok s).2 = s) := by
  constructor
  · intro inv h
    obtain ⟨_, _, o, hfm, hinv, hs'⟩ := webhookStep_paid_inv h
    obtain ⟨hmem, hamt, hst, hmax⟩ := findMatch_spec hfm
    refine ⟨o, hmem, hinv, hst, hamt, hmax, ?_, ?_, ?_⟩
    · rw [hs']
      exact mem_markPaid_updated hmem rfl
    · intro x hx hxinv
      rw [hs'] at hx
      exact markPaid_status x hx (by rw [hxinv, ← hinv])
    · intro x hx hxne
      rw [hs']
      exact mem_markPaid_of_ne hx (by rw [hinv]; exact hxne)
  · exact webhookStep_not_paid

/-- Witness for C1 at a concrete input: one pending order at 50123, webhook
delivering `amountDetected = 50123`. -/
theorem webhook_selects_unique_most_recent_pending_witness :
    ∃ o ∈ oneOrderState.orders,
      o.invoice_number = "INV-1" ∧ o.status = "pending" ∧
      some o.total_amount = extractAmount sampleNotif ∧
      (∀ x ∈ oneOrderState.orders, x.status = "pending" →
        some x.total_amount = extractAmount sampleNotif →
        textLt o.created_at x.created_at = false) ∧
      { o with status := "paid", paid_at := some "2024-01-15 11:00:00" }
        ∈ (webhookStep sampleSettings none sampleNotif "2024-01-15 11:00:00" 0 "tokA"
            oneOrderState).2.orders ∧
      (∀ x ∈ (webhookStep sampleSettings none sampleNotif "2024-01-15 11:00:00" 0 "tokA"
          oneOrderState).2.orders,
        x.invoice_number = "INV-1" →
          x.status = "paid" ∧ x.paid_at = some "2024-01-15 11:00:00") ∧
      (∀ x ∈ oneOrderState.orders, x.invoice_number ≠ "INV-1" →
        x ∈ (webhookStep sampleSettings none sampleNotif "2024-01-15 11:00:00" 0 "tokA"
            oneOrderState).2.orders) :=
  (webhook_selects_unique_most_recent_pending sampleSettings none sampleNotif
    "2024-01-15 11:00:00" 0 "tokA" oneOrderState).1 "INV-1" (by decide)

/-- **C2, counterexample.** Two pending orders can share the total 50123
(independent unique codes, no live-uniqueness check).  The first delivery of
`{amountDetected: 50123}` pays `INV-2` (the most recent); delivering the same
payload a second time is *not* a no-op: it pays `INV-1`, decrements the stock
a second time (5 → 3 across the two calls) and mints a second token. -/
theorem webhook_second_delivery_not_noop :
    (webhookStep sampleSettings none sampleNotif "2024-01-15 11:00:00" 0 "tokA"
        twoOrderState).1 = .paidInvoice "INV-2" ∧
    (webhookStep sampleSettings none sampleNotif "2024-01-15 11:01:00" 60000 "tokB"
        afterFirstDelivery).1 = .paidInvoice "INV-1" ∧
    (webhookStep sampleSettings none sampleNotif "2024-01-15 11:01:00" 60000 "tokB"
        afterFirstDelivery).2 ≠ afterFirstDelivery ∧
    (webhookStep sampleSettings none sampleNotif "2024-01-15 11:01:00" 60000 "tokB"
        afterFirstDelivery).2.products = [{ sampleProduct with stock := 3 }] ∧
    (webhookStep sampleSettings none sampleNotif "2024-01-15 11:01:00" 60000 "tokB"
        afterFirstDelivery).2.tokens.length = 2 := by
  decide

/-- **C2, amended.** When the matched order is the *only* pending order at
the extracted amount, a second delivery of the same payload is a no-op: it
answers `noMatch` and leaves every order, product and token unchanged,
because the match query is restricted to `status = 'pending'`. -/
theorem webhook_second_delivery_noop
    (st : Settings) (k : Option String) (n : Notification)
    (ts ts' : String) (ms ms' : Int) (tok tok' : String) (s : DBState) (inv : String)
    (huniq : (pendingMatches (extractAmount n) s.orders).length ≤ 1)
    (h : (webhookStep st k n ts ms tok s).1 = .paidInvoice inv) :
    webhookStep st k n ts' ms' tok' (webhookStep st k n ts ms tok s).2 =
      (.noMatch, (webhookStep st k n ts ms tok s).2) := by
  obtain ⟨h1, h2, o, hfm, hinv, hs'⟩ := webhookStep_paid_inv h
  have hempty : pendingMatches (extractAmount n)
      ((webhookStep st k n ts ms tok s).2).orders = [] := by
    rw [hs']
    exact pendingMatches_after_markPaid hfm huniq ts
  have hnone : findMatch (extractAmount n)
      ((webhookStep st k n ts ms tok s).2).orders = none := by
    unfold findMatch
    rw [hempty]
    rfl
  generalize hX : (webhookStep st k n ts ms tok s).2 = X at hnone ⊢
  unfold webhookStep
  rw [if_neg h1, if_neg h2, hnone]

/-- Witness for the amended C2: one pending order at 50123; the second
delivery of the same payload answers `noMatch` and changes nothing. -/
theorem webhook_second_delivery_noop_witness :
    webhookStep sampleSettings none sampleNotif "2024-01-15 11:01:00" 60000 "tokB"
        (webhookStep sampleSettings none sampleNotif "2024-01-15 11:00:00" 0 "tokA"
          oneOrderState).2 =
      (.noMatch,
        (webhookStep sampleSettings none sampleNotif "2024-01-15 11:00:00" 0 "tokA"
          oneOrderState).2) :=
  webhook_second_delivery_noop sampleSettings none sampleNotif
    "2024-01-15 11:00:00" "2024-01-15 11:01:00" 0 60000 "tokA" "tokB" oneOrderState
    "INV-1" (by decide) (by decide)

/-- **C3 (the code at the failing input).** The sweep's cutoff is the
JavaScript ISO string `new Date(now - 1h).toISOString()`, but `created_at`
carries SQLite's `CURRENT_TIMESTAMP` format; in the `DATETIME` column both
stay TEXT and compare lexicographically, and `' ' < 'T'` at index 10.  At a
sweep whose cutoff is `2024-01-15T11:00:00.000Z` (i.e. run at 12:00:00Z):
a pending order created ten minutes before the sweep (`11:50:00`) *is*
deleted, contradicting the claim that it remains; the 90-minute-old pending
order is deleted and the old `paid` order survives, as claimed. -/
theorem cleanup_deletes_ten_minute_old_pending :
    textLt "2024-01-15 11:50:00" "2024-01-15T11:00:00.000Z" = true ∧
    cleanupExpiredOrders "2024-01-15T11:00:00.000Z"
        [{ sampleOrder1 with created_at := "2024-01-15 11:50:00" }] = [] ∧
    cleanupExpiredOrders "2024-01-15T11:00:00.000Z"
        [{ sampleOrder1 with created_at := "2024-01-15 10:30:00" }] = [] ∧
    cleanupExpiredOrders "2024-01-15T11:00:00.000Z"
        [{ sampleOrder1 with created_at := "2020-01-01 00:00:00", status := "paid" }] =
      [{ sampleOrder1 with created_at := "2020-01-01 00:00:00", status := "paid" }] := by
  decide

/-- **C4, counterexample.** A checkout that supplies a non-empty sanitized
WhatsApp number but no email is rejected with `Email is required`, with no
order created, even though the product exists, is active and has stock —
refuting "it is not rejected for lacking any one specific channel". -/
theorem checkout_rejects_whatsapp_only :
    checkoutStep "P1" none (some "6281234567890") none "INV-9" 123 "Q"
        "2024-01-15 10:00:00" emptyShopState =
      (.emailRequired, emptyShopState) ∧
    sampleProduct.is_active = true ∧ 0 < sampleProduct.stock := by
  decide

/-- **C4, amended.** Checkout requires specifically a non-empty sanitized
*email*; when the email is non-empty and the referenced product exists, is
active and has stock > 0, order creation succeeds and appends a new order in
status `'pending'` (the other contact channels are optional). -/
theorem checkout_creates_pending_order
    (pid : String) (email wa tg : Option String) (inv : String) (code : Int)
    (qris nowTs : String) (s : DBState) (p : Product)
    (hemail : strTruthy email = true)
    (hp : findActiveProduct pid s.products = some p)
    (hstock : 0 < p.stock) :
    checkoutStep pid email wa tg inv code qris nowTs s =
      (.ok inv,
        { s with orders := s.orders ++ [mkOrder inv p code email wa tg qris nowTs] }) ∧
    (mkOrder inv p code email wa tg qris nowTs).status = "pending" := by
  constructor
  · unfold checkoutStep
    rw [if_neg (by simp [hemail]), hp]
    simp only [if_neg (not_le.2 hstock)]
  · rfl

/-- Witness for the amended C4: email only, sample product in stock. -/
theorem checkout_creates_pending_order_witness :
    checkoutStep "P1" (some "x@y.z") none none "INV-9" 123 "Q"
        "2024-01-15 10:00:00" emptyShopState =
      (.ok "INV-9",
        { emptyShopState with orders := emptyShopState.orders ++
            [mkOrder "INV-9" sampleProduct 123 (some "x@y.z") none none "Q"
              "2024-01-15 10:00:00"] }) ∧
    (mkOrder "INV-9" sampleProduct 123 (some "x@y.z") none none "Q"
      "2024-01-15 10:00:00").status = "pending" :=
  checkout_creates_pending_order "P1" (some "x@y.z") none none "INV-9" 123 "Q"
    "2024-01-15 10:00:00" emptyShopState sampleProduct (by decide) (by decide) (by decide)

/-- **C5.** Every order created by checkout (web or bot) satisfies
`total_amount = product_price + unique_code` with the unique code in 1–999
(the generator's range, modelled from the spec since `utils.js` is not in the
sources), and the equality keeps holding for the persisted row under webhook
processing and the cleanup sweep. -/
theorem order_amount_invariant :
    (∀ pid email wa tg inv code qris nowTs s,
      uniqueCodeInRange code →
      ∀ o ∈ (checkoutStep pid email wa tg inv code qris nowTs s).2.orders,
        o ∉ s.orders →
        o.total_amount = o.product_price + o.unique_code ∧
          1 ≤ o.unique_code ∧ o.unique_code ≤ 999) ∧
    (∀ p email wa inv code qris nowTs s,
      uniqueCodeInRange code →
      ∀ o ∈ (botCreateOrder p email wa inv code qris nowTs s).orders,
        o ∉ s.orders →
        o.total_amount = o.product_price + o.unique_code ∧
          1 ≤ o.unique_code ∧ o.unique_code ≤ 999) ∧
    (∀ st k n ts ms tok s,
      (∀ o ∈ s.orders, o.total_amount = o.product_price + o.unique_code ∧
        1 ≤ o.unique_code ∧ o.unique_code ≤ 999) →
      ∀ o ∈ (webhookStep st k n ts ms tok s).2.orders,
        o.total_amount = o.product_price + o.unique_code ∧
          1 ≤ o.unique_code ∧ o.unique_code ≤ 999) ∧
    (∀ (cutoff : String) (s : DBState),
      (∀ o ∈ s.orders, o.total_amount = o.product_price + o.unique_code ∧
        1 ≤ o.unique_code ∧ o.unique_code ≤ 999) →
      ∀ o ∈ cleanupExpiredOrders cutoff s.orders,
        o.total_amount = o.product_price + o.unique_code ∧
          1 ≤ o.unique_code ∧ o.unique_code ≤ 999) := by
  refine ⟨?_, ?_, ?_, ?_⟩
  · intro pid email wa tg inv code qris nowTs s hcode o ho hnot
    unfold checkoutStep at ho
    split at ho
    · exact absurd ho hnot
    · split at ho
      · exact absurd ho hnot
      · split at ho
        · exact absurd ho hnot
        · rcases List.mem_append.1 ho with hl | hr
          · exact absurd hl hnot
          · rw [List.mem_singleton] at hr
            subst hr
            exact ⟨rfl, hcode.1, hcode.2⟩
  · intro p email wa inv code qris nowTs s hcode o ho hnot
    unfold botCreateOrder at ho
    rcases List.mem_append.1 ho with hl | hr
    · exact absurd hl hnot
    · rw [List.mem_singleton] at hr
      subst hr
      exact ⟨rfl, hcode.1, hcode.2⟩
  · intro st k n ts ms tok s hinv o ho
    unfold webhookStep at ho
    split at ho
    · exact hinv o ho
    · split at ho
      · exact hinv o ho
      · split at ho
        · exact hinv o ho
        · rename_i m _
          unfold markPaid at ho
          obtain ⟨y, hy, hfy⟩ := List.mem_map.1 ho
          by_cases hc : y.invoice_number = m.invoice_number
          · rw [if_pos hc] at hfy
            rw [← hfy]
            exact hinv y hy
          · rw [if_neg hc] at hfy
            rw [← hfy]
            exact hinv y hy
  · intro cutoff s hinv o ho
    exact hinv o (List.mem_of_mem_filter ho)

/-- Witness for C5: the concrete web checkout of
`checkout_creates_pending_order_witness` yields an order with
`total = 50000 + 123` and code 123 ∈ [1, 999]. -/
theorem order_amount_invariant_witness :
    (mkOrder "INV-9" sampleProduct 123 (some "x@y.z") none none "Q"
        "2024-01-15 10:00:00").total_amount =
      (mkOrder "INV-9" sampleProduct 123 (some "x@y.z") none none "Q"
        "2024-01-15 10:00:00").product_price +
      (mkOrder "INV-9" sampleProduct 123 (some "x@y.z") none none "Q"
        "2024-01-15 10:00:00").unique_code ∧
    1 ≤ (mkOrder "INV-9" sampleProduct 123 (some "x@y.z") none none "Q"
        "2024-01-15 10:00:00").unique_code ∧
    (mkOrder "INV-9" sampleProduct 123 (some "x@y.z") none none "Q"
        "2024-01-15 10:00:00").unique_code ≤ 999 :=
  order_amount_invariant.1 "P1" (some "x@y.z") none none "INV-9" 123 "Q"
    "2024-01-15 10:00:00" emptyShopState (by constructor <;> decide) _ (by decide) (by decide)

/-- **C6.** A product's stock is never driven below zero: starting from
non-negative stocks, after any sequence of webhook deliveries (payment
matches included) every product's stock is still ≥ 0, because the decrement
is conditioned on `stock > 0`. -/
theorem stock_never_negative
    (l : List WebhookInput) (s : DBState)
    (h : ∀ p ∈ s.products, 0 ≤ p.stock) :
    ∀ p ∈ (runWebhooks l s).products, 0 ≤ p.stock := by
  induction l generalizing s with
  | nil => exact h
  | cons i is ih =>
      exact ih _ (webhookStep_stock_nonneg h)

/-- Witness for C6: one delivery against the sample shop drives the stock of
`P1` from 5 to 4, which is still non-negative. -/
theorem stock_never_negative_witness :
    (0 : Int) ≤ ({ sampleProduct with stock := 4 } : Product).stock :=
  stock_never_negative
    [⟨sampleSettings, none, sampleNotif, "2024-01-15 11:00:00", 0, "tokA"⟩]
    oneOrderState (by decide) _ (by decide)

/-- **C7, counterexample.** A token bound to an order that is *not* `'paid'`
does not always yield the forbidden outcome: the handler checks expiry first,
so redeeming the expired `pendingToken` (order still `pending`) at time 2000
yields the expired redirect, not `forbidden`. -/
theorem redeem_unpaid_expired_counterexample :
    sampleOrder1.status ≠ "paid" ∧
    (redeem "T1" 2000 pendingTokenState).1 = .expiredRedirect ∧
    (redeem "T1" 2000 pendingTokenState).1 ≠ .forbidden := by
  decide

/-- **C7, amended.** For a token bound to an order that is not `'paid'`:
if the token is unexpired (and its product row exists), redemption yields the
distinct forbidden outcome; and in every case — expired or not — redemption
never serves the file nor redirects to the external link (the outcome is
always the expired redirect or forbidden). -/
theorem redeem_unpaid_forbidden
    (t : String) (nowMs : Int) (s : DBState) (dt : DownloadToken) (o : Order)
    (hdt : findToken t s.tokens = some dt)
    (ho : findOrder dt.invoice_number s.orders = some o)
    (hnp : o.status ≠ "paid") :
    (∀ p, findProduct dt.product_id s.products = some p →
      ¬ dt.expires_at < nowMs → redeem t nowMs s = (.forbidden, s)) ∧
    ((redeem t nowMs s).1 = .expiredRedirect ∨ (redeem t nowMs s).1 = .forbidden) := by
  constructor
  · intro p hp hexp
    unfold redeem
    simp only [hdt, ho, hp, if_neg hexp, if_pos hnp]
  · unfold redeem
    simp only [hdt, ho]
    cases hp : findProduct dt.product_id s.products with
    | none => simp only [hp]; left; trivial
    | some p =>
        simp only [hp]
        by_cases hexp : dt.expires_at < nowMs
        · simp only [if_pos hexp]
          left; trivial
        · simp only [if_neg hexp, if_pos hnp]
          right; trivial

/-- Witness for the amended C7: the unexpired `pendingToken` at time 500 (its
order is `pending`) is rejected with the forbidden outcome. -/
theorem redeem_unpaid_forbidden_witness :
    redeem "T1" 500 pendingTokenState = (.forbidden, pendingTokenState) :=
  ((redeem_unpaid_forbidden "T1" 500 pendingTokenState pendingToken sampleOrder1
    (by decide) (by decide) (by decide)).1 sampleProduct (by decide) (by decide))

/-- **C8.** Redeeming a token once the wall clock exceeds its `expires_at`
yields the expired outcome regardless of the token's use-tracking state
(`is_used`, `download_count` are arbitrary); conversely a successful
redemption (redirect or file stream) never prevents a later one: replaying
the handler on the post-redemption state, at any unexpired instant, yields
the very same successful outcome. -/
theorem redeem_expiry_and_reuse :
    (∀ (t : String) (now : Int) (s : DBState) (dt : DownloadToken),
      findToken t s.tokens = some dt → dt.expires_at < now →
      redeem t now s = (.expiredRedirect, s)) ∧
    (∀ (t : String) (now now' : Int) (s s2 : DBState) (dt : DownloadToken)
      (r : RedeemResult),
      findToken t s.tokens = some dt →
      redeem t now s = (r, s2) →
      r ≠ .expiredRedirect ∧ r ≠ .forbidden ∧ r ≠ .fileNotFound →
      ¬ dt.expires_at < now' →
      (redeem t now' s2).1 = r) := by
  constructor
  · intro t now s dt hdt hexp
    unfold redeem
    simp only [hdt]
    cases ho : findOrder dt.invoice_number s.orders with
    | none => rfl
    | some o =>
        simp only [ho]
        cases hp : findProduct dt.product_id s.products with
        | none => rfl
        | some p => simp only [hp, if_pos hexp]
  · intro t now now' s s2 dt r hdt h hr hexp'
    obtain ⟨dt0, o, p, hdt0, ho, hp, _, hpaid, hs2, hout⟩ := redeem_success_inv h hr
    rw [hdt] at hdt0
    injection hdt0 with hdt0
    subst hdt0
    subst hs2
    have hdt2 := findToken_touchToken t now s.tokens dt hdt
    unfold redeem
    simp only [hdt2, ho, hp, if_neg hexp', if_neg (show ¬ o.status ≠ "paid" by simp [hpaid])]
    rcases hout with ⟨hlink, hrr⟩ | ⟨hlink, hfile, hrr⟩
    · simp only [if_pos hlink, hrr]
    · simp only [hlink, Bool.false_eq_true, if_false, if_pos hfile, hrr]

/-- Witness for C8: the live token `T2` redeemed at 4000000 (past expiry
3600000) is expired; redeemed successfully at 500 and then again at 1000 on
the updated state, it redirects both times. -/
theorem redeem_expiry_and_reuse_witness :
    redeem "T2" 4000000 paidTokenState = (.expiredRedirect, paidTokenState) ∧
    (redeem "T2" 1000 (redeem "T2" 500 paidTokenState).2).1 =
      .redirectLink "https://files.example/ebook" :=
  ⟨redeem_expiry_and_reuse.1 "T2" 4000000 paidTokenState paidToken
      (by decide) (by decide),
   redeem_expiry_and_reuse.2 "T2" 500 1000 paidTokenState
      (redeem "T2" 500 paidTokenState).2 paidToken
      (.redirectLink "https://files.example/ebook")
      (by decide) (by decide) (by decide) (by decide)⟩

/-- **C9.** Amount extraction tries `amountDetected` first, then `amount`,
and only then the currency regex over the free-text field (with thousands
separators stripped, as the concrete instance shows); and an authenticated
request from which no amount is extracted is acknowledged as `noAmount` (a
success response) with the state — orders, products and tokens — unchanged. -/
theorem webhook_extraction_order_and_noop :
    (∀ (n : Notification) (v : Int), n.amountDetected = some v → v ≠ 0 →
      extractAmount n = some v) ∧
    (∀ (n : Notification) (v : Int), numTruthy n.amountDetected = false →
      n.amount = some v → v ≠ 0 → extractAmount n = some v) ∧
    (∀ (n : Notification) (t : String), numTruthy n.amountDetected = false →
      numTruthy n.amount = false → n.text = some t → t ≠ "" →
      extractAmount n = extractFromText t) ∧
    extractFromText "Pembayaran Rp 1.234.567 diterima" = some 1234567 ∧
    (∀ (st : Settings) (k : Option String) (n : Notification) (ts : String)
      (ms : Int) (tok : String) (s : DBState),
      ¬(strTruthy st.webhook_api_key = true ∧ k ≠ some (st.webhook_api_key.getD "")) →
      extractAmount n = some 0 →
      webhookStep st k n ts ms tok s = (.noAmount, s)) := by
  refine ⟨?_, ?_, ?_, by decide, ?_⟩
  · intro n v h hv
    simp [extractAmount, h, numTruthy, hv]
  · intro n v h0 h hv
    unfold extractAmount
    rw [h0]
    simp [h, numTruthy, hv]
  · intro n t h0 h1 ht hne
    unfold extractAmount
    rw [h0, h1]
    simp [ht, strTruthy, hne]
  · intro st k n ts ms tok s hauth hz
    unfold webhookStep
    rw [if_neg hauth, if_pos hz]

/-- Witness for C9: a notification with no amount fields at all is
acknowledged as `noAmount` against the sample shop, which is untouched. -/
theorem webhook_extraction_order_and_noop_witness :
    webhookStep sampleSettings none
        { amountDetected := none, amount := none, text := none }
        "2024-01-15 11:00:00" 0 "tokA" oneOrderState =
      (.noAmount, oneOrderState) :=
  webhook_extraction_order_and_noop.2.2.2.2 sampleSettings none
    { amountDetected := none, amount := none, text := none }
    "2024-01-15 11:00:00" 0 "tokA" oneOrderState (by decide) (by decide)

/-- **C10.** When the configured `webhook_api_key` setting is absent or the
empty string (JS-falsy), the shared-secret check is skipped: no request is
rejected as unauthorized and the outcome does not depend on the `x-api-key`
header at all; conversely an unauthorized rejection is only reachable when a
non-empty key is configured and the header differs from it. -/
theorem webhook_auth_skipped_when_unconfigured :
    (∀ (st : Settings) (k k' : Option String) (n : Notification) (ts : String)
      (ms : Int) (tok : String) (s : DBState),
      strTruthy st.webhook_api_key = false →
      (webhookStep st k n ts ms tok s).1 ≠ .unauthorized ∧
      webhookStep st k n ts ms tok s = webhookStep st k' n ts ms tok s) ∧
    (∀ (st : Settings) (k : Option String) (n : Notification) (ts : String)
      (ms : Int) (tok : String) (s : DBState),
      (webhookStep st k n ts ms tok s).1 = .unauthorized →
      strTruthy st.webhook_api_key = true ∧ k ≠ some (st.webhook_api_key.getD "")) := by
  constructor
  · intro st k k' n ts ms tok s hkey
    have hcond : ∀ kk : Option String,
        ¬(strTruthy st.webhook_api_key = true ∧ kk ≠ some (st.webhook_api_key.getD "")) := by
      intro kk hc
      rw [hkey] at hc
      exact absurd hc.1 (by simp)
    constructor
    · unfold webhookStep
      rw [if_neg (hcond k)]
      split
      · simp
      · cases hfm : findMatch (extractAmount n) s.orders with
        | none => simp [hfm]
        | some o => simp [hfm]
    · unfold webhookStep
      rw [if_neg (hcond k), if_neg (hcond k')]
  · intro st k n ts ms tok s h
    unfold webhookStep at h
    split at h
    · assumption
    · split at h
      · cases h
      · split at h
        · cases h
        · cases h

/-- Witness for C10: with no key configured, an arbitrary header is accepted
and behaves exactly like an absent header. -/
theorem webhook_auth_skipped_when_unconfigured_witness :
    (webhookStep sampleSettings (some "wrong-key") sampleNotif "2024-01-15 11:00:00"
        0 "tokA" oneOrderState).1 ≠ .unauthorized ∧
    webhookStep sampleSettings (some "wrong-key") sampleNotif "2024-01-15 11:00:00"
        0 "tokA" oneOrderState =
      webhookStep sampleSettings none sampleNotif "2024-01-15 11:00:00"
        0 "tokA" oneOrderState :=
  webhook_auth_skipped_when_unconfigured.1 sampleSettings (some "wrong-key") none
    sampleNotif "2024-01-15 11:00:00" 0 "tokA" oneOrderState (by decide)

end RSAStore
